import Mathlib

/-!
# Verification of the `define_routes!` route-table DSL compiler

Shallow embedding of `src/lib.rs` of the `poem-route-macro` crate.  The
crate is a procedural macro: it parses a token stream describing an HTTP
route table and emits a builder-chain expression.

* `Tok` models a `proc_macro2` token tree: identifiers, punctuation,
  string/integer literals, and parenthesis/brace delimited groups.  A
  token stream is a `List Tok`.  Multi-character joint punctuation such
  as `::` is modelled as a single `Tok.punct "::"`.
* The AST types `Method`, `Path`, `StandardRoute`, `NestedRoute`,
  `Route`, `Routes` mirror the Rust types of the same names (source
  spans are dropped; they carry no semantic content).
* The emitter functions (`Method.render`, `apply_method`,
  `apply_method_path`, `StandardRoute.render`,
  `NestedRoute.cleanup_endpoint`, `NestedRoute.render`, `Route.render`,
  `Routes.render`, `define_routes`) transcribe the corresponding Rust
  functions, with each `quote!` template expanded into the explicit
  token list it produces.
* The recursive-descent parser (the `syn::Parse` impls) is modelled by
  functions `List Tok → Except ParseErr (α × List Tok)` returning the
  parsed value and the unconsumed remainder of the stream.  `syn`'s
  `Lookahead1::error` is modelled by `ParseErr`, which carries the list
  of expected alternatives and the remaining stream at the point of
  failure; the head of that remaining stream is the offending token,
  which gives the error's source position.

Host-language (`syn`) grammar primitives that the crate merely calls —
`LitStr`, the statement grammar inside a block, and the generic `Expr`
used only for the optional base expression — are external collaborators
(spec §1/§4.2) and are modelled at their interface: a string-literal
token, a semicolon-separated statement list inside a brace group, and a
qualified-path expression.  No claim depends on their internals beyond
this interface.
-/

namespace RouteMacro

/-- A `proc_macro2` token tree.  `paren`/`brace` are delimited groups. -/
inductive Tok where
  | ident : String → Tok
  | punct : String → Tok
  | litStr : String → Tok
  | litInt : Nat → Tok
  | paren : List Tok → Tok
  | brace : List Tok → Tok
deriving Repr

/-- Structural equality test for token trees (the nested occurrence of
`List Tok` keeps `deriving DecidableEq` from applying). -/
def Tok.beq : Tok → Tok → Bool
  | .ident a, .ident b => a == b
  | .punct a, .punct b => a == b
  | .litStr a, .litStr b => a == b
  | .litInt a, .litInt b => a == b
  | .paren a, .paren b => beqList a b
  | .brace a, .brace b => beqList a b
  | _, _ => false
where
  beqList : List Tok → List Tok → Bool
    | [], [] => true
    | x :: xs, y :: ys => Tok.beq x y && beqList xs ys
    | _, _ => false

/-- Does a token tree contain the identifier `s`, anywhere, including
inside delimited groups? -/
def containsIdentTok (s : String) : Tok → Bool
  | .ident t => t == s
  | .paren inner => containsIdentList inner
  | .brace inner => containsIdentList inner
  | _ => false
where
  containsIdentList : List Tok → Bool
    | [] => false
    | t :: rest => containsIdentTok s t || containsIdentList rest

/-- Does a token stream contain the identifier `s`, anywhere, including
inside delimited groups? -/
def containsIdent (s : String) (ts : List Tok) : Bool :=
  containsIdentTok.containsIdentList s ts

/-- The four HTTP verbs (Rust `enum Method`); the `keyword::*` span
payloads are dropped. -/
inductive Method where
  | get | post | put | delete
deriving DecidableEq, Repr

/-- `Method::render`: the canonical lowercase name. -/
def Method.render : Method → String
  | .get => "get"
  | .post => "post"
  | .put => "put"
  | .delete => "delete"

/-- A `syn::Path` as produced by this DSL: `::`-separated identifier
segments (the DSL never produces generic arguments or leading `::`). -/
structure Path where
  segments : List String
deriving DecidableEq, Repr

/-- `ToTokens` for `syn::Path`: segments interleaved with `::`. -/
def Path.toTokens (p : Path) : List Tok :=
  match p.segments with
  | [] => []
  | s :: rest => Tok.ident s :: rest.flatMap (fun seg => [Tok.punct "::", Tok.ident seg])

/-- `apply_method`: `format_ident!("{}_{}", method, ident)` — the verb's
lowercase name, an underscore, then the original identifier. -/
def apply_method (ident : String) (method : Method) : String :=
  method.render ++ "_" ++ ident

/-- The `last_mut` rewrite inside `apply_method_path`: replace the final
segment by its method-derived identifier.  A path with no segments is
left unchanged (`if let Some(last) = path.segments.last_mut()`). -/
def applyMethodSegs (method : Method) : List String → List String
  | [] => []
  | [s] => [apply_method s method]
  | s :: b :: rest => s :: applyMethodSegs method (b :: rest)

/-- `apply_method_path`'s effect on the (cloned) path. -/
def Path.applyMethodLast (p : Path) (method : Method) : Path :=
  ⟨applyMethodSegs method p.segments⟩

/-- `apply_method_path`: clone the path, rewrite its last segment, then
emit `quote! { poem::#method(#path) }` when `head`, otherwise
`quote! { . #method(#path) }`. -/
def apply_method_path (head : Bool) (path : Path) (method : Method) : List Tok :=
  let path := path.applyMethodLast method
  if head then
    [Tok.ident "poem", Tok.punct "::", Tok.ident method.render, Tok.paren path.toTokens]
  else
    [Tok.punct ".", Tok.ident method.render, Tok.paren path.toTokens]

/-- Rust `struct StandardRoute`: a path literal, a qualified handler
path, and the trailing verb list. -/
structure StandardRoute where
  path : String
  ident : Path
  methods : List Method
deriving Repr

/-- The `builder` vector accumulated in `StandardRoute::render`: each
method is pushed rendered with `head = builder.is_empty()`. -/
def StandardRoute.builder (r : StandardRoute) : List (List Tok) :=
  r.methods.foldl (fun b m => b ++ [apply_method_path b.isEmpty r.ident m]) []

/-- `StandardRoute::render`: `quote! { .at(#path, #(#builder)*) }`. -/
def StandardRoute.render (r : StandardRoute) : List Tok :=
  [Tok.punct ".", Tok.ident "at",
   Tok.paren ([Tok.litStr r.path, Tok.punct ","] ++ r.builder.flatten)]

/-- A statement of a `syn::Block`.  `exprStmt toks semi` is
`Stmt::Expr(expr, semi)` — an expression statement, with `semi = true`
when a trailing semicolon is present (the semicolon token is *not* part
of the expression's own tokens, exactly as in `syn`).  `other` covers
the remaining statement kinds (`Local`, `Item`, `Macro`), carried as
their raw tokens. -/
inductive Stmt where
  | exprStmt : List Tok → Bool → Stmt
  | other : List Tok → Stmt
deriving Repr

/-- `ToTokens` for a statement: an expression statement re-emits its
expression, plus its semicolon when present. -/
def Stmt.toTokens : Stmt → List Tok
  | .exprStmt ts true => ts ++ [Tok.punct ";"]
  | .exprStmt ts false => ts
  | .other ts => ts

/-- A `syn::Block`: the statements between the braces. -/
structure Block where
  stmts : List Stmt
deriving Repr

/-- `ToTokens` for a block (and hence for the `syn::ExprBlock` endpoint,
whose attribute/label fields are always empty here): one brace group
holding the statements' tokens. -/
def Block.toTokens (b : Block) : List Tok :=
  [Tok.brace (b.stmts.flatMap Stmt.toTokens)]

/-- Rust `struct NestedRoute`: a path literal and the block expression
holding the endpoint. -/
structure NestedRoute where
  path : String
  endpoint : Block
deriving Repr

/-- `NestedRoute::cleanup_endpoint`: if the block holds exactly one
statement and that statement is an expression statement, emit the bare
expression (`quote! { #expr }`); otherwise emit the whole block
(`quote! { #endpoint }`). -/
def NestedRoute.cleanup_endpoint (r : NestedRoute) : List Tok :=
  if r.endpoint.stmts.length = 1 then
    match r.endpoint.stmts.head? with
    | some (Stmt.exprStmt e _) => e
    | _ => r.endpoint.toTokens
  else
    r.endpoint.toTokens

/-- `NestedRoute::render`: `quote! { .nest(#path, #endpoint) }` with the
cleaned-up endpoint. -/
def NestedRoute.render (r : NestedRoute) : List Tok :=
  [Tok.punct ".", Tok.ident "nest",
   Tok.paren ([Tok.litStr r.path, Tok.punct ","] ++ r.cleanup_endpoint)]

/-- Rust `enum Route`: the tagged union over the two route variants. -/
inductive Route where
  | nested : NestedRoute → Route
  | standard : StandardRoute → Route
deriving Repr

/-- `Route::render`: dispatch to the variant's renderer. -/
def Route.render : Route → List Tok
  | .nested n => n.render
  | .standard s => s.render

/-- Rust `struct Routes`: the base expression's tokens and the parsed
route entries. -/
structure Routes where
  route : List Tok
  routes : List Route
deriving Repr

/-- `Routes::render`: `quote! { #route #(#routes)* }` — the base
expression followed by every route's rendering, in order. -/
def Routes.render (r : Routes) : List Tok :=
  r.route ++ (r.routes.map Route.render).flatten

/-- A parse failure, modelling `syn::Error` as produced by the crate's
parsers: the alternatives the error message lists, and the unconsumed
stream at the point of failure (its head is the offending token, which
carries the error's position). -/
structure ParseErr where
  expected : List String
  remaining : List Tok
deriving Repr

/-- `input.parse::<syn::LitStr>()`, at its interface: succeed on a
string-literal token, otherwise fail there expecting one. -/
def parseLitStr : List Tok → Except ParseErr (String × List Tok)
  | Tok.litStr s :: rest => .ok (s, rest)
  | ts => .error ⟨["string literal"], ts⟩

/-- The segment loop of `syn::Path` parsing: while the stream continues
with `::`, a following identifier segment is required. -/
def parsePathRest : List Tok → List String → Except ParseErr (List String × List Tok)
  | Tok.punct "::" :: rest, acc =>
    match rest with
    | Tok.ident s :: rest2 => parsePathRest rest2 (acc ++ [s])
    | _ => .error ⟨["identifier"], rest⟩
  | ts, acc => .ok (acc, ts)

/-- `input.parse::<syn::Path>()` for the identifier paths this DSL
produces: a leading identifier segment, then `:: identifier` repeats. -/
def Path.parse : List Tok → Except ParseErr (Path × List Tok)
  | Tok.ident s :: rest =>
    match parsePathRest rest [s] with
    | .ok (segs, out) => .ok (⟨segs⟩, out)
    | .error e => .error e
  | ts => .error ⟨["identifier"], ts⟩

/-- Which of the four custom keywords an identifier is, if any
(`lookahead.peek(keyword::GET)` etc. are case-sensitive exact matches). -/
def Method.ofKeyword (s : String) : Option Method :=
  if s = "GET" then some .get
  else if s = "POST" then some .post
  else if s = "PUT" then some .put
  else if s = "DELETE" then some .delete
  else none

/-- `Method`'s `Parse` impl: a `Lookahead1` that peeks the four verb
keywords in turn and otherwise produces `lookahead.error()`, whose
message lists the four alternatives. -/
def Method.parse : List Tok → Except ParseErr (Method × List Tok)
  | Tok.ident s :: rest =>
    match Method.ofKeyword s with
    | some m => .ok (m, rest)
    | none => .error ⟨["GET", "POST", "PUT", "DELETE"], Tok.ident s :: rest⟩
  | ts => .error ⟨["GET", "POST", "PUT", "DELETE"], ts⟩

/-- Is the token an identifier, as `lookahead.peek(syn::Ident)` tests?
(The DSL's identifiers are never Rust keywords, so the keyword
exclusion of `syn::Ident` cannot fire and is not modelled.) -/
def Tok.isIdentTok : Tok → Bool
  | .ident _ => true
  | _ => false

/-- The verb-list loop of `StandardRoute`'s `Parse` impl:
`while !input.is_empty() { if !lookahead.peek(syn::Ident) { break; }
methods.push(input.parse()?); }`.  `Method.parse` on an identifier token
consumes exactly that token on success and otherwise fails without
consuming, so the loop body is inlined here (see
`Method.parse`): a verb keyword is consumed and the loop continues, any
other identifier propagates the lookahead error, and a non-identifier
token ends the loop unconsumed. -/
def parseMethods : List Tok → Except ParseErr (List Method × List Tok)
  | [] => .ok ([], [])
  | Tok.ident s :: rest =>
    match Method.ofKeyword s with
    | some m =>
      match parseMethods rest with
      | .ok (ms, out) => .ok (m :: ms, out)
      | .error e => .error e
    | none => .error ⟨["GET", "POST", "PUT", "DELETE"], Tok.ident s :: rest⟩
  | ts => .ok ([], ts)

/-- `StandardRoute`'s `Parse` impl: a path literal, then the qualified
handler path, then the verb-list loop; each `?` propagates the first
failure. -/
def StandardRoute.parse (ts : List Tok) : Except ParseErr (StandardRoute × List Tok) :=
  match parseLitStr ts with
  | .error e => .error e
  | .ok (path, ts1) =>
    match Path.parse ts1 with
    | .error e => .error e
    | .ok (ident, ts2) =>
      match parseMethods ts2 with
      | .error e => .error e
      | .ok (methods, ts3) => .ok (⟨path, ident, methods⟩, ts3)

/-- Modelled at the interface: the host language's statement grammar
inside a block (`syn::Block`), as the semicolon-separated chunks of the
brace group's tokens — a chunk before a `;` is a semicolon-terminated
expression statement, a trailing chunk without one is the block's tail
expression.  No claim depends on block internals beyond the statement
count and expression-statement shape. -/
def stmtsOfToksAux : List Tok → List Tok → List Stmt
  | [], [] => []
  | [], acc => [Stmt.exprStmt acc false]
  | Tok.punct ";" :: rest, acc => Stmt.exprStmt acc true :: stmtsOfToksAux rest []
  | t :: rest, acc => stmtsOfToksAux rest (acc ++ [t])

/-- The statements of a brace group's token list (see `stmtsOfToksAux`). -/
def stmtsOfToks (ts : List Tok) : List Stmt := stmtsOfToksAux ts []

/-- `NestedRoute`'s `Parse` impl: the `*` sentinel, a path literal, then
the endpoint block (`input.parse::<syn::ExprBlock>()`, which requires a
brace group). -/
def NestedRoute.parse : List Tok → Except ParseErr (NestedRoute × List Tok)
  | Tok.punct "*" :: rest =>
    match parseLitStr rest with
    | .error e => .error e
    | .ok (path, ts1) =>
      match ts1 with
      | Tok.brace inner :: ts2 => .ok (⟨path, ⟨stmtsOfToks inner⟩⟩, ts2)
      | ts2 => .error ⟨["a block expression"], ts2⟩
  | ts => .error ⟨["an asterisk"], ts⟩

/-- `Route`'s `Parse` impl: one token of lookahead — a `*` starts a
nested route, anything else is parsed as a standard route. -/
def Route.parse (ts : List Tok) : Except ParseErr (Route × List Tok) :=
  match ts with
  | Tok.punct "*" :: _ =>
    match NestedRoute.parse ts with
    | .ok (n, rest) => .ok (.nested n, rest)
    | .error e => .error e
  | _ =>
    match StandardRoute.parse ts with
    | .ok (s, rest) => .ok (.standard s, rest)
    | .error e => .error e

/-- `parseLitStr` consumes exactly the string-literal token. -/
lemma parseLitStr_length {ts out : List Tok} {s : String}
    (h : parseLitStr ts = .ok (s, out)) : out.length < ts.length := by
  cases ts with
  | nil => simp [parseLitStr] at h
  | cons t rest =>
    cases t <;> simp [parseLitStr] at h
    obtain ⟨rfl, rfl⟩ := h
    simp

/-- The `syn::Path` segment loop never lengthens the stream. -/
lemma parsePathRest_length (ts : List Tok) (acc : List String) :
    ∀ {segs : List String} {out : List Tok},
    parsePathRest ts acc = .ok (segs, out) → out.length ≤ ts.length := by
  induction ts, acc using parsePathRest.induct with
  | case1 acc s rest2 ih =>
    intro segs out h
    rw [parsePathRest] at h
    have := ih h
    simp only [List.length_cons]
    omega
  | case2 acc rest hne =>
    intro segs out h
    rw [parsePathRest] at h
    · simp at h
    · exact hne
  | case3 ts acc hne =>
    intro segs out h
    rw [parsePathRest] at h
    · simp at h
      obtain ⟨h1, h2⟩ := h
      subst h2
      exact le_refl _
    · exact hne

/-- `syn::Path` parsing consumes at least its leading identifier. -/
lemma path_parse_spends {ts out : List Tok} {p : Path}
    (h : Path.parse ts = .ok (p, out)) : out.length < ts.length := by
  cases ts with
  | nil => simp [Path.parse] at h
  | cons t rest =>
    cases t <;> simp only [Path.parse] at h <;> try (exact absurd h (by simp))
    case ident s =>
      cases hp : parsePathRest rest [s] with
      | ok v =>
        obtain ⟨segs, out2⟩ := v
        rw [hp] at h
        simp at h
        obtain ⟨-, rfl⟩ := h
        have := parsePathRest_length rest [s] hp
        simp only [List.length_cons]
        omega
      | error e => rw [hp] at h; simp at h

/-- The verb-list loop never lengthens the stream. -/
lemma parseMethods_length (ts : List Tok) :
    ∀ {ms : List Method} {out : List Tok},
    parseMethods ts = .ok (ms, out) → out.length ≤ ts.length := by
  induction ts using parseMethods.induct with
  | case1 =>
    intro ms out h
    rw [parseMethods] at h
    simp at h
    simp [h.2]
  | case2 s rest m hk ms2 out2 hok ih =>
    intro ms out h
    rw [parseMethods] at h
    rw [hk, hok] at h
    simp at h
    obtain ⟨-, rfl⟩ := h
    have := ih hok
    simp only [List.length_cons]
    omega
  | case3 s rest m hk e herr ih =>
    intro ms out h
    rw [parseMethods] at h
    rw [hk, herr] at h
    simp at h
  | case4 s rest hk =>
    intro ms out h
    rw [parseMethods] at h
    rw [hk] at h
    simp at h
  | case5 ts h1 h2 =>
    intro ms out h
    rw [parseMethods] at h
    · simp at h
      obtain ⟨-, h3⟩ := h
      subst h3
      exact le_refl _
    · exact h1
    · exact h2

/-- A standard route consumes at least its path literal and handler. -/
lemma standard_parse_spends {ts out : List Tok} {r : StandardRoute}
    (h : StandardRoute.parse ts = .ok (r, out)) : out.length < ts.length := by
  unfold StandardRoute.parse at h
  split at h
  next e heq => simp at h
  next path ts1 heq =>
    split at h
    next e heq2 => simp at h
    next pid ts2 heq2 =>
      split at h
      next e heq3 => simp at h
      next ms ts3 heq3 =>
        simp at h
        obtain ⟨-, rfl⟩ := h
        have e1 := parseLitStr_length heq
        have e2 := path_parse_spends heq2
        have e3 := parseMethods_length ts2 heq3
        omega

/-- A nested route consumes at least its sentinel, path and block. -/
lemma nested_parse_spends {ts out : List Tok} {r : NestedRoute}
    (h : NestedRoute.parse ts = .ok (r, out)) : out.length < ts.length := by
  rw [NestedRoute.parse.eq_def] at h
  split at h
  next rest =>
    split at h
    next e heq => simp at h
    next path ts1 heq =>
      split at h
      next inner ts2 =>
        simp at h
        obtain ⟨-, rfl⟩ := h
        have e1 := parseLitStr_length heq
        simp only [List.length_cons] at *
        omega
      next hne => simp at h
  next hne => simp at h

/-- Either route variant consumes at least one token on success. -/
lemma route_parse_spends {ts out : List Tok} {r : Route}
    (h : Route.parse ts = .ok (r, out)) : out.length < ts.length := by
  unfold Route.parse at h
  split at h
  · split at h
    next n rest heq =>
      simp at h
      obtain ⟨-, rfl⟩ := h
      exact nested_parse_spends heq
    next e heq => simp at h
  · split at h
    next s rest heq =>
      simp at h
      obtain ⟨-, rfl⟩ := h
      exact standard_parse_spends heq
    next e heq => simp at h

/-- The `while !content.is_empty()` loop of `Routes`'s `Parse` impl:
parse route entries until the brace group's content is exhausted,
propagating the first failure.  Termination: each successful
`Route.parse` consumes at least one token (`route_parse_spends`). -/
def parseRouteList (ts : List Tok) : Except ParseErr (List Route) :=
  match ts with
  | [] => .ok []
  | t :: rest =>
    match _h : Route.parse (t :: rest) with
    | .error e => .error e
    | .ok (r, rest2) =>
      match parseRouteList rest2 with
      | .error e => .error e
      | .ok rs => .ok (r :: rs)
termination_by ts.length
decreasing_by
  exact route_parse_spends _h

/-- `quote! { poem::Route::new() }`, the default base expression. -/
def freshBuilder : List Tok :=
  [Tok.ident "poem", Tok.punct "::", Tok.ident "Route", Tok.punct "::",
   Tok.ident "new", Tok.paren []]

/-- `input.parse::<syn::Expr>()` for the optional base expression.  The
host expression grammar is external; it is modelled at the interface as
a qualified path expression, which covers every base expression the
macro's own documentation exhibits. -/
def parseExpr (ts : List Tok) : Except ParseErr (List Tok × List Tok) :=
  match Path.parse ts with
  | .ok (p, rest) => .ok (p.toTokens, rest)
  | .error e => .error ⟨["an expression"], e.remaining⟩

/-- The second half of `Routes::parse`: `braced!(content in input)` —
which requires a brace group and otherwise fails expecting one — then
the route loop over the group's content. -/
def Routes.parseAfterBase (route : List Tok) : List Tok → Except ParseErr (Routes × List Tok)
  | Tok.brace inner :: rest =>
    match parseRouteList inner with
    | .ok routes => .ok (⟨route, routes⟩, rest)
    | .error e => .error e
  | ts => .error ⟨["curly braces"], ts⟩

/-- `Routes`'s `Parse` impl: if the stream opens with the brace group
(`lookahead.peek(syn::token::Brace)`), the base expression defaults to
`poem::Route::new()`; otherwise an expression is parsed and a comma is
required after it.  Then `braced!` enters the brace group and the route
loop runs over its content (`Routes.parseAfterBase`). -/
def Routes.parse (ts : List Tok) : Except ParseErr (Routes × List Tok) :=
  match ts with
  | Tok.brace _ :: _ => Routes.parseAfterBase freshBuilder ts
  | _ =>
    match parseExpr ts with
    | .error e => .error e
    | .ok (route, ts1) =>
      match ts1 with
      | Tok.punct "," :: ts2 => Routes.parseAfterBase route ts2
      | _ => .error ⟨[","], ts1⟩

/-- `define_routes`: `parse_macro_input!(input as Routes)` — which
additionally requires the whole input stream to be consumed — followed
by `.render()`. -/
def define_routes (input : List Tok) : Except ParseErr (List Tok) :=
  match Routes.parse input with
  | .ok (r, []) => .ok r.render
  | .ok (_, t :: rest) => .error ⟨["end of input"], t :: rest⟩
  | .error e => .error e

/-- The builder fold of `StandardRoute::render`, once its accumulator is
non-empty, renders every remaining method with `head = false` and
appends it, preserving order. -/
lemma builder_foldl (i : Path) (ms : List Method) :
    ∀ acc : List (List Tok), acc.isEmpty = false →
    ms.foldl (fun b m => b ++ [apply_method_path b.isEmpty i m]) acc
      = acc ++ ms.map (apply_method_path false i) := by
  induction ms with
  | nil => intro acc _; simp
  | cons m ms ih =>
    intro acc h
    simp only [List.foldl_cons, List.map_cons]
    rw [h]
    rw [ih]
    · simp
    · simp

/-- `builder` for a non-empty verb list: the first verb is rendered as
the head call, each later verb as a chained call, in source order. -/
lemma StandardRoute.builder_cons (p : String) (i : Path) (m : Method) (ms : List Method) :
    StandardRoute.builder ⟨p, i, m :: ms⟩
      = apply_method_path true i m :: ms.map (apply_method_path false i) := by
  unfold StandardRoute.builder
  simp only [List.foldl_cons, List.nil_append, List.isEmpty_nil]
  rw [builder_foldl]
  · simp
  · simp

/-- Rewriting the last of `pre ++ [s]` rewrites `s` and keeps `pre`. -/
lemma applyMethodSegs_append (m : Method) (pre : List String) (s : String) :
    applyMethodSegs m (pre ++ [s]) = pre ++ [apply_method s m] := by
  induction pre with
  | nil => rfl
  | cons a pre ih =>
    cases pre with
    | nil => rfl
    | cons b pre2 =>
      simp only [List.cons_append, List.append_eq, applyMethodSegs] at ih ⊢
      rw [ih]

/-- The last-segment rewrite preserves the number of segments. -/
lemma applyMethodSegs_length (m : Method) : ∀ l : List String,
    (applyMethodSegs m l).length = l.length
  | [] => rfl
  | [_] => rfl
  | _ :: b :: rest => by
    simp only [applyMethodSegs, List.length_cons]
    rw [applyMethodSegs_length m (b :: rest)]
    simp

/-- C1 (counterexample): for the standard route `"/" index` with an
empty verb list, `render` emits `.at("/",)` with nothing after the
comma — the handler identifier `index` appears nowhere in the output,
refuting the claim that the raw handler-path is used directly as the
endpoint value.  (In `quote! { .at(#path, #(#builder)*) }` the
repetition ranges over `builder`, which is empty when there are no
verbs; the `ident` field is never emitted.) -/
theorem C1_counterexample :
    StandardRoute.render ⟨"/", ⟨["index"]⟩, []⟩
        = [Tok.punct ".", Tok.ident "at", Tok.paren [Tok.litStr "/", Tok.punct ","]]
      ∧ containsIdent "index" (StandardRoute.render ⟨"/", ⟨["index"]⟩, []⟩) = false := by
  exact ⟨rfl, by decide⟩

/-- C1 (amended): for every StandardRoute with an empty verb list,
`render` emits `.at(<path>,)` whose second argument is empty — the
parsed handler-path does not appear in the output at all. -/
theorem C1_render_zero_verbs (p : String) (i : Path) :
    StandardRoute.render ⟨p, i, []⟩
      = [Tok.punct ".", Tok.ident "at", Tok.paren [Tok.litStr p, Tok.punct ","]] := by
  simp [StandardRoute.render, StandardRoute.builder]

/-- C2 (counterexample): in a verb-list position, the identifier `BAR`
(which is none of the four verb keywords) does not silently terminate
the verb list — `StandardRoute` parsing fails with the lookahead error
listing the four keywords, positioned at `BAR`, refuting the claim that
such a token is left for the enclosing route-list parser. -/
theorem C2_counterexample :
    StandardRoute.parse [Tok.litStr "/", Tok.ident "foo", Tok.ident "BAR"]
      = .error ⟨["GET", "POST", "PUT", "DELETE"], [Tok.ident "BAR"]⟩ := rfl

/-- C2 (amended): in the verb-list loop, an identifier-shaped token
that matches none of the four verb keywords raises an immediate
unknown-verb error at that token (its message listing the four
alternatives); only a non-identifier token — or the end of the stream —
terminates the verb list, unconsumed and without error. -/
theorem C2_verb_list_termination :
    (∀ (s : String) (rest : List Tok), Method.ofKeyword s = none →
        parseMethods (Tok.ident s :: rest)
          = .error ⟨["GET", "POST", "PUT", "DELETE"], Tok.ident s :: rest⟩)
    ∧ (∀ (t : Tok) (rest : List Tok), t.isIdentTok = false →
        parseMethods (t :: rest) = .ok ([], t :: rest))
    ∧ parseMethods [] = .ok ([], []) := by
  refine ⟨?_, ?_, rfl⟩
  · intro s rest h
    rw [parseMethods, h]
  · intro t rest h
    cases t <;> simp [Tok.isIdentTok] at h <;> rfl

/-- C2 (witness): the amended statement at concrete inputs — the
identifier `BAR` errors, while a string literal (the start of the next
route entry) ends the verb list unconsumed. -/
theorem C2_witness :
    parseMethods [Tok.ident "BAR"]
        = .error ⟨["GET", "POST", "PUT", "DELETE"], [Tok.ident "BAR"]⟩
    ∧ parseMethods [Tok.litStr "/x"] = .ok ([], [Tok.litStr "/x"]) := by
  exact ⟨C2_verb_list_termination.1 "BAR" [] rfl,
         C2_verb_list_termination.2.1 (Tok.litStr "/x") [] rfl⟩

/-- C3: identifier derivation is the pure string function
`v ++ "_" ++ name`, and rewriting a qualified handler-path touches only
its final segment — every preceding module-qualifier segment passes
through unchanged.  (Instances: `get` + `foo` ↦ `get_foo`; `put` +
`mod::bar` ↦ `mod::put_bar`.) -/
theorem C3_identifier_derivation (m : Method) (pre : List String) (s : String) :
    apply_method s m = m.render ++ "_" ++ s
    ∧ Path.applyMethodLast ⟨pre ++ [s]⟩ m = ⟨pre ++ [apply_method s m]⟩
    ∧ Path.applyMethodLast ⟨["foo"]⟩ .get = ⟨["get_foo"]⟩
    ∧ Path.applyMethodLast ⟨["mod", "bar"]⟩ .put = ⟨["mod", "put_bar"]⟩ := by
  refine ⟨rfl, ?_, rfl, rfl⟩
  unfold Path.applyMethodLast
  rw [applyMethodSegs_append]

/-- C4: for a verb list `m :: ms`, `render` emits exactly one verb call
per verb, in source order and without deduplication — the first as the
namespace-qualified free-function call `poem::<verb>(<derived path>)`,
each later one as the chained method call `.<verb>(<derived path>)` —
and wraps the whole chain as the second argument of `.at(<path>, …)`. -/
theorem C4_render_verb_chain (p : String) (i : Path) (m : Method) (ms : List Method) :
    StandardRoute.builder ⟨p, i, m :: ms⟩
        = apply_method_path true i m :: ms.map (apply_method_path false i)
    ∧ (StandardRoute.builder ⟨p, i, m :: ms⟩).length = (m :: ms).length
    ∧ StandardRoute.render ⟨p, i, m :: ms⟩
        = [Tok.punct ".", Tok.ident "at",
           Tok.paren (([Tok.litStr p, Tok.punct ","] ++ apply_method_path true i m)
             ++ (ms.map (apply_method_path false i)).flatten)]
    ∧ apply_method_path true i m
        = [Tok.ident "poem", Tok.punct "::", Tok.ident m.render,
           Tok.paren (i.applyMethodLast m).toTokens]
    ∧ (∀ m2, apply_method_path false i m2
        = [Tok.punct ".", Tok.ident m2.render, Tok.paren (i.applyMethodLast m2).toTokens]) := by
  refine ⟨StandardRoute.builder_cons p i m ms, ?_, ?_, rfl, fun m2 => rfl⟩
  · rw [StandardRoute.builder_cons]
    simp
  · unfold StandardRoute.render
    rw [StandardRoute.builder_cons]
    simp

/-- C5: a nested route whose block holds exactly one bare expression
statement emits that expression directly (no enclosing block) as the
second argument of `.nest`; a block with zero statements, or with two
or more, is emitted unchanged as a brace group. -/
theorem C5_nested_block_unwrapping (p : String) (e : List Tok) (s1 s2 : Stmt) (ss : List Stmt) :
    NestedRoute.render ⟨p, ⟨[Stmt.exprStmt e false]⟩⟩
        = [Tok.punct ".", Tok.ident "nest",
           Tok.paren ([Tok.litStr p, Tok.punct ","] ++ e)]
    ∧ NestedRoute.render ⟨p, ⟨[]⟩⟩
        = [Tok.punct ".", Tok.ident "nest",
           Tok.paren ([Tok.litStr p, Tok.punct ","] ++ Block.toTokens ⟨[]⟩)]
    ∧ NestedRoute.render ⟨p, ⟨s1 :: s2 :: ss⟩⟩
        = [Tok.punct ".", Tok.ident "nest",
           Tok.paren ([Tok.litStr p, Tok.punct ","] ++ Block.toTokens ⟨s1 :: s2 :: ss⟩)] := by
  refine ⟨rfl, rfl, ?_⟩
  unfold NestedRoute.render NestedRoute.cleanup_endpoint
  simp

/-- C9: a block holding exactly one semicolon-terminated expression
statement is unwrapped as well — the emitted endpoint is the bare
expression with the trailing semicolon dropped (the block's own tokens,
by contrast, would have carried the semicolon). -/
theorem C9_semicolon_statement_unwrapped (p : String) (e : List Tok) :
    NestedRoute.cleanup_endpoint ⟨p, ⟨[Stmt.exprStmt e true]⟩⟩ = e
    ∧ NestedRoute.render ⟨p, ⟨[Stmt.exprStmt e true]⟩⟩
        = [Tok.punct ".", Tok.ident "nest",
           Tok.paren ([Tok.litStr p, Tok.punct ","] ++ e)]
    ∧ Block.toTokens ⟨[Stmt.exprStmt e true]⟩ = [Tok.brace (e ++ [Tok.punct ";"])] := by
  refine ⟨rfl, rfl, ?_⟩
  simp [Block.toTokens, Stmt.toTokens]

/-- C10: `apply_method_path` is total — on a path with zero segments the
guarded last-segment rewrite leaves the path unchanged (no failure
branch exists) — and it operates on a copy: the rewrite is a pure
function of the path that preserves its segment count, the original
being untouched by construction in this purely functional model. -/
theorem C10_apply_method_path_total (hd : Bool) (m : Method) (p : Path) :
    apply_method_path hd ⟨[]⟩ m
        = (if hd then [Tok.ident "poem", Tok.punct "::", Tok.ident m.render, Tok.paren []]
           else [Tok.punct ".", Tok.ident m.render, Tok.paren []])
    ∧ Path.applyMethodLast ⟨[]⟩ m = ⟨[]⟩
    ∧ (p.applyMethodLast m).segments.length = p.segments.length := by
  refine ⟨?_, rfl, applyMethodSegs_length m p.segments⟩
  cases hd <;> rfl

/-- The route loop propagates a failure of its first entry. -/
lemma parseRouteList_cons_err (t : Tok) (rest : List Tok) (e : ParseErr)
    (h : Route.parse (t :: rest) = .error e) :
    parseRouteList (t :: rest) = .error e := by
  rw [parseRouteList.eq_def]
  split
  next heq => simp at heq
  next t2 rest2 heq =>
    injection heq with h1 h2
    subst h1
    subst h2
    split
    next e2 heq2 =>
      rw [h] at heq2
      injection heq2 with h3
      rw [h3]
    next r rest2 heq2 =>
      rw [h] at heq2
      simp at heq2

/-- C6: `Routes.render` emits the base expression followed by every
route's rendering concatenated in source order; one rendered fragment
per parsed route, each of which is a single top-level `.at` or `.nest`
call; and with zero routes the result is the base expression alone. -/
theorem C6_table_render (base : List Tok) (rs : List Route) :
    Routes.render ⟨base, rs⟩ = base ++ (rs.map Route.render).flatten
    ∧ (rs.map Route.render).length = rs.length
    ∧ (∀ r ∈ rs, ∃ nm args,
        Route.render r = [Tok.punct ".", Tok.ident nm, Tok.paren args]
        ∧ (nm = "at" ∨ nm = "nest"))
    ∧ Routes.render ⟨base, []⟩ = base := by
  refine ⟨rfl, by simp, ?_, by simp [Routes.render]⟩
  intro r _
  cases r with
  | nested n => exact ⟨"nest", _, rfl, Or.inr rfl⟩
  | standard s => exact ⟨"at", _, rfl, Or.inl rfl⟩

/-- C6 (witness): the table-render law at a concrete one-route table. -/
theorem C6_witness :
    Routes.render ⟨[Tok.ident "r"], [Route.standard ⟨"/", ⟨["index"]⟩, [Method.get]⟩]⟩
      = [Tok.ident "r"]
        ++ ([Route.standard ⟨"/", ⟨["index"]⟩, [Method.get]⟩].map Route.render).flatten := by
  exact (C6_table_render [Tok.ident "r"] [Route.standard ⟨"/", ⟨["index"]⟩, [Method.get]⟩]).1

/-- C7: in `Routes` parsing, an input that opens directly with the
brace-delimited route block gets the default base expression
`poem::Route::new()`; while an input that supplies a base expression
must follow it with a comma — if the token after the base expression is
not a comma, parsing fails there expecting one. -/
theorem C7_base_expression :
    (∀ (inner rest : List Tok) (rs : List Route), parseRouteList inner = .ok rs →
        Routes.parse (Tok.brace inner :: rest) = .ok (⟨freshBuilder, rs⟩, rest))
    ∧ (∀ (ts ts1 e : List Tok),
        (∀ (inner rest : List Tok), ts ≠ Tok.brace inner :: rest) →
        parseExpr ts = .ok (e, ts1) →
        (∀ ts2 : List Tok, ts1 ≠ Tok.punct "," :: ts2) →
        Routes.parse ts = .error ⟨[","], ts1⟩) := by
  constructor
  · intro inner rest rs h
    simp [Routes.parse, Routes.parseAfterBase, h]
  · intro ts ts1 e hnb hpe hnc
    rw [Routes.parse.eq_def]
    split
    next inner rest => exact absurd rfl (hnb inner rest)
    next hne =>
      rw [hpe]
      dsimp only
      split
      next ts2 => exact absurd rfl (hnc ts2)
      next => rfl

/-- C7 (witness): the base-expression rules at concrete inputs — a
braceless-prefix table gets the fresh-builder base, and a base
expression not followed by a comma is a parse error at that point. -/
theorem C7_witness :
    Routes.parse [Tok.brace []] = .ok (⟨freshBuilder, []⟩, [])
    ∧ Routes.parse [Tok.ident "r", Tok.brace []]
        = .error ⟨[","], [Tok.brace []]⟩ := by
  constructor
  · exact C7_base_expression.1 [] [] [] (by rw [parseRouteList])
  · exact C7_base_expression.2 [Tok.ident "r", Tok.brace []] [Tok.brace []] [Tok.ident "r"]
      (by intro inner rest hh; simp at hh) rfl
      (by intro ts2 hh; simp at hh)

/-- C8: for the malformed input `{ "/" 123 GET }` — an integer literal
where the handler-path is expected — the whole macro fails with a
token-kind error whose position is the `123` token (the head of the
error's remaining stream) and whose message expects an identifier; the
result is an `Except.error`, so no output, partial or otherwise, is
produced. -/
theorem C8_malformed_handler_input :
    define_routes [Tok.brace [Tok.litStr "/", Tok.litInt 123, Tok.ident "GET"]]
      = .error ⟨["identifier"], [Tok.litInt 123, Tok.ident "GET"]⟩ := by
  have h : parseRouteList [Tok.litStr "/", Tok.litInt 123, Tok.ident "GET"]
      = .error ⟨["identifier"], [Tok.litInt 123, Tok.ident "GET"]⟩ :=
    parseRouteList_cons_err _ _ _ rfl
  simp [define_routes, Routes.parse, Routes.parseAfterBase, h]
